import Mathlib

/-
Verification of the date-window aggregation logic of the health-dashboard
repository.  Calendar days are embedded as integers (the number of days
since an arbitrary epoch); Python `date` subtraction `.days` becomes `Int`
subtraction.  Python floats appearing in the aggregation code are embedded
as rationals, with Python `round` (banker's rounding, ties to even)
modelled exactly.  Each definition mirrors one function or code block of
`health_notifications.py`, `generate_dashboard.py` or `garmin_notion_sync.py`.
-/

namespace HealthDash

/-- An activity row as consumed by the aggregation code: its calendar date
(as an integer day number) and its list of type tags (the code stores one
tag per row but treats it as a list). -/
structure Exercise where
  date : Int
  types : List String
deriving DecidableEq, Repr

/-- CARDIO_TYPES from health_notifications.py line 38; generate_dashboard.py
line 314 defines the identical set. -/
def CARDIO_TYPES : List String :=
  ["Run", "Walk", "Indoor Cycle", "Hike", "Trail Run", "Rucking", "Padel", "Tennis", "Golf"]

/-- Weekly cardio target (health_notifications.py line 26). -/
def WEEKLY_CARDIO_GOAL : Int := 4

/-- Weekly strength target (line 27). -/
def WEEKLY_STRENGTH_GOAL : Int := 3

/-- Monthly cardio target (line 30). -/
def MONTHLY_CARDIO_GOAL : Int := 16

/-- Monthly strength target (line 31). -/
def MONTHLY_STRENGTH_GOAL : Int := 10

/-- Rest-day warning threshold (line 34). -/
def REST_DAY_WARNING : Int := 2

/-- Rest-day urgent threshold (line 35). -/
def REST_DAY_URGENT : Int := 3

/-- The `is_cardio` predicate in get_today_suggestion: any tag in CARDIO_TYPES. -/
def isCardio (e : Exercise) : Bool := e.types.any (fun t => CARDIO_TYPES.contains t)

/-- The `is_strength` predicate: tag list contains Kettlebells. -/
def isStrength (e : Exercise) : Bool := e.types.contains "Kettlebells"

/-- Python's built-in `round` on an exact value: round half to even
(banker's rounding), as applied by the code to small exact quantities. -/
def pyRound (q : ℚ) : Int :=
  let f := ⌊q⌋
  let r := q - (f : ℚ)
  if r < 1/2 then f
  else if 1/2 < r then f + 1
  else if f % 2 = 0 then f else f + 1

/-- Python's `round(x, 1)`: round to one decimal place, ties to even. -/
def round1 (q : ℚ) : ℚ := ((pyRound (10 * q) : Int) : ℚ) / 10

/-- has_activity_in_last_n_days (health_notifications.py lines 86-90):
filter to records with date strictly after `today - n_days`, then test
whether any satisfies the check function. -/
def has_activity_in_last_n_days (exercises : List Exercise)
    (check : Exercise → Bool) (nDays today : Int) : Bool :=
  (exercises.filter (fun e => decide (today - nDays < e.date))).any check

/-- get_today_suggestion (health_notifications.py lines 268-323).  The two
nested ifs of priorities 4 and 5 fall through to the next priority when the
inner test fails, which is exactly the conjunction of the two conditions. -/
def get_today_suggestion (rest_days weekly_cardio weekly_strength
    monthly_cardio monthly_strength cardio_expected strength_expected : Int)
    (exercises : List Exercise) (today : Int)
    (falling_off_cardio falling_off_strength : Bool) : String :=
  if rest_days ≥ REST_DAY_URGENT then
    "Get moving! Even a 20min walk counts."
  else if rest_days ≥ REST_DAY_WARNING then
    "Time to move. Light cardio or kettlebells."
  else if falling_off_strength ∧ weekly_strength ≤ WEEKLY_STRENGTH_GOAL then
    "Kettlebells - replace what\x27s falling off tomorrow"
  else if falling_off_cardio ∧ weekly_cardio ≤ WEEKLY_CARDIO_GOAL then
    "Cardio - replace what\x27s falling off tomorrow"
  else if weekly_strength < WEEKLY_STRENGTH_GOAL - 1 ∧
      ¬ has_activity_in_last_n_days exercises isStrength 2 today then
    "Kettlebells - you\x27re behind this week"
  else if weekly_cardio < WEEKLY_CARDIO_GOAL - 1 ∧
      ¬ has_activity_in_last_n_days exercises isCardio 2 today then
    "Cardio session - you\x27re behind this week"
  else if monthly_strength < strength_expected - 1 then
    "Kettlebells session"
  else if monthly_cardio < cardio_expected - 1 then
    "MAF cardio (walk, run, or cycle)"
  else if ¬ has_activity_in_last_n_days exercises isStrength 3 today then
    "Kettlebells (none in last 3 days)"
  else if ¬ has_activity_in_last_n_days exercises isCardio 3 today then
    "Easy cardio for recovery"
  else
    "On track. Rest or light movement."

/-- The specification's decision table (spec section 4.4): eleven rules in
the stated order, each a guard paired with its prompt, with the stated
numeric thresholds and slack terms written as the spec gives them. -/
def spec_decision_table (rest_days weekly_cardio weekly_strength
    monthly_cardio monthly_strength cardio_expected strength_expected : Int)
    (exercises : List Exercise) (today : Int)
    (falling_off_cardio falling_off_strength : Bool) : List (Bool × String) :=
  [ (decide (rest_days ≥ 3), "Get moving! Even a 20min walk counts."),
    (decide (rest_days ≥ 2), "Time to move. Light cardio or kettlebells."),
    (falling_off_strength && decide (weekly_strength ≤ 3),
      "Kettlebells - replace what\x27s falling off tomorrow"),
    (falling_off_cardio && decide (weekly_cardio ≤ 4),
      "Cardio - replace what\x27s falling off tomorrow"),
    (decide (weekly_strength < 3 - 1) &&
        !(has_activity_in_last_n_days exercises isStrength 2 today),
      "Kettlebells - you\x27re behind this week"),
    (decide (weekly_cardio < 4 - 1) &&
        !(has_activity_in_last_n_days exercises isCardio 2 today),
      "Cardio session - you\x27re behind this week"),
    (decide (monthly_strength < strength_expected - 1), "Kettlebells session"),
    (decide (monthly_cardio < cardio_expected - 1), "MAF cardio (walk, run, or cycle)"),
    (!(has_activity_in_last_n_days exercises isStrength 3 today),
      "Kettlebells (none in last 3 days)"),
    (!(has_activity_in_last_n_days exercises isCardio 3 today),
      "Easy cardio for recovery"),
    (true, "On track. Rest or light movement.") ]

/-- Evaluate an ordered decision table top to bottom, first match wins. -/
def first_match : List (Bool × String) → String
  | [] => ""
  | (b, s) :: rest => if b then s else first_match rest

/-- Membership test of the rolling 7-day window as computed by
build_daily_message (health_notifications.py lines 103-108):
seven_days_ago = today - 7, window is seven_days_ago ≤ d ≤ yesterday. -/
def inNotifWeek (today d : Int) : Bool :=
  decide (today - 7 ≤ d) && decide (d ≤ today - 1)

/-- week_exercises of build_daily_message (lines 105-108). -/
def notif_week_exercises (exercises : List Exercise) (today : Int) : List Exercise :=
  exercises.filter (fun e => inNotifWeek today e.date)

/-- weekly_cardio of build_daily_message (line 110). -/
def notif_weekly_cardio (exercises : List Exercise) (today : Int) : ℕ :=
  ((notif_week_exercises exercises today).filter isCardio).length

/-- weekly_strength of build_daily_message (line 111). -/
def notif_weekly_strength (exercises : List Exercise) (today : Int) : ℕ :=
  ((notif_week_exercises exercises today).filter isStrength).length

/-- Membership test of the last-7-days window as computed by
generate_dashboard (generate_dashboard.py lines 317-320):
yesterday = today - 1, six_days_ago = yesterday - 6,
window is six_days_ago ≤ d ≤ yesterday. -/
def inDashWeek (today d : Int) : Bool :=
  decide ((today - 1) - 6 ≤ d) && decide (d ≤ today - 1)

/-- last_7_days_exercises of generate_dashboard (line 320). -/
def dash_last7_exercises (exercises : List Exercise) (today : Int) : List Exercise :=
  exercises.filter (fun e => inDashWeek today e.date)

/-- cardio_7d of generate_dashboard (line 336). -/
def dash_cardio_7d (exercises : List Exercise) (today : Int) : ℕ :=
  ((dash_last7_exercises exercises today).filter isCardio).length

/-- strength_7d of generate_dashboard (line 337). -/
def dash_strength_7d (exercises : List Exercise) (today : Int) : ℕ :=
  ((dash_last7_exercises exercises today).filter isStrength).length

/-- progress_ratio of build_daily_message (line 138): day_of_month divided
by days_in_month, as an exact value. -/
def progress_ratio (dayOfMonth daysInMonth : Int) : ℚ :=
  (dayOfMonth : ℚ) / (daysInMonth : ℚ)

/-- cardio_expected of build_daily_message (line 139). -/
def cardio_expected_pace (dayOfMonth daysInMonth : Int) : Int :=
  pyRound ((MONTHLY_CARDIO_GOAL : ℚ) * progress_ratio dayOfMonth daysInMonth)

/-- strength_expected of build_daily_message (line 140). -/
def strength_expected_pace (dayOfMonth daysInMonth : Int) : Int :=
  pyRound ((MONTHLY_STRENGTH_GOAL : ℚ) * progress_ratio dayOfMonth daysInMonth)

/-- A weight row with its calendar date as an integer day number
(for the computations of generate_dashboard.py that only compare dates). -/
structure WEntry where
  date : Int
  weight : ℚ
deriving DecidableEq, Repr

/-- The 10-day window of the rolling weight average (generate_dashboard.py
lines 456-459): all weights with ten_days_ago < date ≤ current_date, where
ten_days_ago = current_date - 10. -/
def rolling_window (ws : List WEntry) (d : Int) : List WEntry :=
  ws.filter (fun x => decide (d - 10 < x.date) && decide (x.date ≤ d))

/-- The rolling_avg value of generate_dashboard.py line 460: the mean of
the window rounded to one decimal when the window is non-empty, otherwise
the observation's own weight. -/
def rolling_avg (ws : List WEntry) (w : WEntry) : ℚ :=
  let window := rolling_window ws w.date
  if window = [] then w.weight
  else round1 ((window.map WEntry.weight).sum / (window.length : ℚ))

/-- latest_weight of generate_dashboard.py line 305: head of the
date-descending weight list, when any. -/
def latest_weight (ws : List WEntry) : Option ℚ := ws.head?.map WEntry.weight

/-- The element Python's stable sort by date puts last: the latest
occurrence among the maximal dates (sorted(...)[-1]). -/
def wLastByDate : List WEntry → Option WEntry :=
  List.foldl (fun acc w =>
    match acc with
    | none => some w
    | some v => if v.date ≤ w.date then some w else some v) none

/-- The element Python's stable sort by date puts first: the earliest
occurrence among the minimal dates (sorted(...)[0]). -/
def wFirstByDate : List WEntry → Option WEntry :=
  List.foldl (fun acc w =>
    match acc with
    | none => some w
    | some v => if w.date < v.date then some w else some v) none

/-- weight_change_30d of generate_dashboard.py lines 415-421: when at
least two weights fall in the last 30 days, last minus first of the
date-sorted window, rounded to one decimal. -/
def weight_change_30d (ws : List WEntry) (today : Int) : Option ℚ :=
  let last30 := ws.filter (fun w => decide (today - 30 ≤ w.date))
  if 2 ≤ last30.length then
    match wLastByDate last30, wFirstByDate last30 with
    | some l, some f => some (round1 (l.weight - f.weight))
    | _, _ => none
  else none

/-- kg_to_go of generate_dashboard.py line 442: latest weight minus the
hardcoded target 82.0, rounded to one decimal, when a weight exists. -/
def kg_to_go (ws : List WEntry) : Option ℚ :=
  (latest_weight ws).map (fun l => round1 (l - 82))

/-- The pace-to-target projection of generate_dashboard.py lines 445-449,
expressed as the projected number of days (months_to_go * 30).  The guard
is the Python truthiness test `weight_change_30d and weight_change_30d < 0
and kg_to_go and kg_to_go > 0`; the inner `if monthly_loss_rate > 0 else 0`
is kept as well. -/
def projected_days (wc30 kg : Option ℚ) : Option ℚ :=
  match wc30, kg with
  | some c, some k =>
    if c ≠ 0 ∧ c < 0 ∧ k ≠ 0 ∧ 0 < k then
      some ((if 0 < |c| then k / |c| else 0) * 30)
    else none
  | _, _ => none

/-- A calendar date with explicit year, month and day fields, ordered
lexicographically, for the per-month statistics. -/
structure HDate where
  y : Int
  m : Int
  d : Int
deriving DecidableEq, Repr

/-- Lexicographic strict order on dates, as Python compares date objects. -/
def dateLt (a b : HDate) : Bool :=
  decide (a.y < b.y) ||
    (decide (a.y = b.y) &&
      (decide (a.m < b.m) || (decide (a.m = b.m) && decide (a.d < b.d))))

/-- Lexicographic order on dates, non-strict. -/
def dateLe (a b : HDate) : Bool := dateLt a b || decide (a = b)

/-- A weight row carrying a full calendar date, for get_month_stats. -/
structure MWeight where
  date : HDate
  weight : ℚ
deriving DecidableEq, Repr

/-- month_start of get_month_stats (generate_dashboard.py line 345). -/
def month_start (year month : Int) : HDate := ⟨year, month, 1⟩

/-- month_end of get_month_stats (lines 346-349). -/
def month_end (year month : Int) : HDate :=
  if month = 12 then ⟨year + 1, 1, 1⟩ else ⟨year, month + 1, 1⟩

/-- month_weights of get_month_stats (lines 355-356). -/
def month_weights (ws : List MWeight) (year month : Int) : List MWeight :=
  ws.filter (fun w =>
    dateLe (month_start year month) w.date && dateLt w.date (month_end year month))

/-- prev_month_weights of get_month_stats (lines 376-377): all weights
dated strictly before the first day of the month. -/
def prev_month_weights (ws : List MWeight) (year month : Int) : List MWeight :=
  ws.filter (fun w => dateLt w.date (month_start year month))

/-- One step of the scan that finds the element Python's stable sort by
date puts last: a later element replaces the accumulator when its date is
at least as large. -/
def mLastStep (acc : Option MWeight) (w : MWeight) : Option MWeight :=
  match acc with
  | none => some w
  | some v => if dateLe v.date w.date then some w else some v

/-- sorted(...)[-1] on MWeight lists: latest occurrence among max dates. -/
def mLastByDate (l : List MWeight) : Option MWeight :=
  List.foldl mLastStep none l

/-- One step of the scan that finds the element Python's stable sort by
date puts first: a later element replaces the accumulator only when its
date is strictly smaller. -/
def mFirstStep (acc : Option MWeight) (w : MWeight) : Option MWeight :=
  match acc with
  | none => some w
  | some v => if dateLt w.date v.date then some w else some v

/-- sorted(...)[0] on MWeight lists: earliest occurrence among min dates. -/
def mFirstByDate (l : List MWeight) : Option MWeight :=
  List.foldl mFirstStep none l

/-- The weight_change computation of get_month_stats (generate_dashboard.py
lines 369-384): last weight of the month minus the last weight dated before
the month start, rounded to one decimal; if no weight precedes the month,
the fallback (last minus first within the month) applies only when the month
is January 2026; otherwise no change is reported. -/
def month_weight_change (ws : List MWeight) (year month : Int) : Option ℚ :=
  match mLastByDate (month_weights ws year month),
      mFirstByDate (month_weights ws year month) with
  | some lastW, some firstW =>
    (match mLastByDate (prev_month_weights ws year month) with
     | some prevW => some (round1 (lastW.weight - prevW.weight))
     | none =>
       if year = 2026 ∧ month = 1 then some (round1 (lastW.weight - firstW.weight))
       else none)
  | _, _ => none

/-- Strict order on the (year, month) pair alone: the date lies in a month
strictly before the given one. -/
def monthIdxLt (a : HDate) (year month : Int) : Bool :=
  decide (a.y < year) || (decide (a.y = year) && decide (a.m < month))

/-- Two dates lie in the same calendar month. -/
def sameMonth (a b : HDate) : Bool := decide (a.y = b.y) && decide (a.m = b.m)

/-- The spec's wording of the previous-month reference weight: take the
nearest preceding month that has data, and within it the last recorded
weight. -/
def spec_prev_month_last (ws : List MWeight) (year month : Int) : Option ℚ :=
  match mLastByDate (ws.filter (fun w => monthIdxLt w.date year month)) with
  | none => none
  | some w0 =>
    (mLastByDate (ws.filter (fun w => sameMonth w.date w0.date))).map MWeight.weight

/-- An upstream activity as the importer sees it: its external id and its
lower-cased upstream category key. -/
structure UpAct where
  id : String
  category : String
deriving DecidableEq, Repr

/-- SKIP_ACTIVITY_TYPES of garmin_notion_sync.py lines 84-87. -/
def SKIP_ACTIVITY_TYPES : List String := ["sleep", "uncategorized"]

/-- An upstream weight entry: its calendar-date key and mass. -/
structure UpWeight where
  wdate : String
  wkg : ℚ
deriving DecidableEq, Repr

/-- The activity loop of sync_garmin (garmin_notion_sync.py lines 295-319):
`existing` is the id set snapshotted before the loop and never updated;
`store` is the set of ids present in the database, which grows as entries
are created (INSERT OR IGNORE keyed on the unique external id).  Returns
(created, skipped, store after the run). -/
def sync_acts_loop (existing : List String) :
    List UpAct → List String → ℕ → ℕ → ℕ × ℕ × List String
  | [], store, created, skipped => (created, skipped, store)
  | a :: rest, store, created, skipped =>
    if existing.contains a.id then
      sync_acts_loop existing rest store created (skipped + 1)
    else if SKIP_ACTIVITY_TYPES.contains a.category then
      sync_acts_loop existing rest store created skipped
    else
      sync_acts_loop existing rest
        (if store.contains a.id then store else a.id :: store) (created + 1) skipped

/-- One activity-sync run (lines 287-319): the snapshot and the store both
start as the ids already in the database. -/
def sync_garmin_activities (existing : List String) (acts : List UpAct) :
    ℕ × ℕ × List String :=
  sync_acts_loop existing acts existing 0 0

/-- The weight loop of sync_garmin (lines 322-335): skip (counted) when the
date is already known, otherwise insert-or-ignore keyed on the unique date. -/
def sync_weights_loop (existingDates : List String) :
    List UpWeight → List String → ℕ → ℕ → ℕ × ℕ × List String
  | [], store, created, skipped => (created, skipped, store)
  | w :: rest, store, created, skipped =>
    if existingDates.contains w.wdate then
      sync_weights_loop existingDates rest store created (skipped + 1)
    else
      sync_weights_loop existingDates rest
        (if store.contains w.wdate then store else w.wdate :: store) (created + 1) skipped

/-- One weight-sync run. -/
def sync_garmin_weights (existingDates : List String) (entries : List UpWeight) :
    ℕ × ℕ × List String :=
  sync_weights_loop existingDates entries existingDates 0 0

/-- The streak-collecting loop of calculate_streak (generate_dashboard.py
lines 66-77): walk the ascending distinct dates keeping the length of the
current run of consecutive days, emitting each finished run; the final run
is emitted at the end, so the result is never empty and its last entry is
the run ending at the most recent date. -/
def runsAux (prev : Int) (run : ℕ) : List Int → List ℕ
  | [] => [run]
  | d :: rest => if d - prev = 1 then runsAux d (run + 1) rest else run :: runsAux d 1 rest

/-- The `sorted(set(...))` step of calculate_streak (line 56): distinct
activity dates in ascending order. -/
def activityDates (exercises : List Exercise) : List Int :=
  List.insertionSort (· ≤ ·) (exercises.map Exercise.date).dedup

/-- calculate_streak (generate_dashboard.py lines 50-93), with the
reference date passed explicitly (the code reads datetime.now()).
Returns (current_streak, longest_streak). -/
def calculate_streak (exercises : List Exercise) (today : Int) : ℕ × ℕ :=
  match activityDates exercises with
  | [] => (0, 0)
  | d :: rest =>
    let streaks := runsAux d 1 rest
    let longest := streaks.foldr max 0
    let lastDate := (d :: rest).getLast (List.cons_ne_nil d rest)
    let current := if today - lastDate > 1 then 0 else streaks.getLastD 0
    (current, longest)

theorem pyRound_of_lt_half (q : ℚ) (h : q - (⌊q⌋ : ℚ) < 1/2) : pyRound q = ⌊q⌋ := by
  simp only [pyRound]
  rw [if_pos h]

theorem pyRound_of_gt_half (q : ℚ) (h : 1/2 < q - (⌊q⌋ : ℚ)) : pyRound q = ⌊q⌋ + 1 := by
  simp only [pyRound]
  rw [if_neg (by linarith), if_pos h]

theorem pyRound_intCast (n : Int) : pyRound (n : ℚ) = n := by
  have h : ⌊(n : ℚ)⌋ = n := Int.floor_intCast n
  rw [pyRound_of_lt_half _ (by rw [h]; norm_num), h]

/-- C1: the recommendation function evaluates the spec's eleven rules
strictly top to bottom with first match winning, in the exact order of the
decision table with the stated slack terms; and for every input with
rest_days at least 3 it returns the urgent movement prompt regardless of
all other counters. -/
theorem c1_cascade_order (rd wc ws mc ms ce se : Int) (exs : List Exercise)
    (today : Int) (foc fos : Bool) :
    get_today_suggestion rd wc ws mc ms ce se exs today foc fos =
      first_match (spec_decision_table rd wc ws mc ms ce se exs today foc fos) ∧
    (spec_decision_table rd wc ws mc ms ce se exs today foc fos).length = 11 ∧
    (3 ≤ rd → get_today_suggestion rd wc ws mc ms ce se exs today foc fos =
      "Get moving! Even a 20min walk counts.") := by
  refine ⟨?_, rfl, ?_⟩
  · simp only [get_today_suggestion, spec_decision_table, first_match,
      REST_DAY_URGENT, REST_DAY_WARNING, WEEKLY_STRENGTH_GOAL, WEEKLY_CARDIO_GOAL,
      Bool.and_eq_true, decide_eq_true_eq, Bool.not_eq_true',
      Bool.not_eq_true, if_true]
  · intro h
    unfold get_today_suggestion REST_DAY_URGENT
    rw [if_pos (by omega)]

/-- C1 witness: the theorem applied at rest_days = 3 with all other
counters zero. -/
theorem c1_cascade_order_witness :
    (3:Int) ≤ 3 ∧ get_today_suggestion 3 0 0 0 0 0 0 [] 0 false false =
      "Get moving! Even a 20min walk counts." :=
  ⟨by norm_num,
   (c1_cascade_order 3 0 0 0 0 0 0 [] 0 false false).2.2 (by norm_num)⟩

/-- C4: the notification builder and the dashboard generator agree on the
rolling 7-day window: their weekly cardio and strength counts coincide on
every record history and reference date, and a record dated today is
inside neither window. -/
theorem c4_weekly_window_agreement :
    (∀ (exs : List Exercise) (today : Int),
      notif_weekly_cardio exs today = dash_cardio_7d exs today ∧
      notif_weekly_strength exs today = dash_strength_7d exs today) ∧
    (∀ today : Int, inNotifWeek today today = false ∧ inDashWeek today today = false) := by
  constructor
  · intro exs today
    have hw : notif_week_exercises exs today = dash_last7_exercises exs today := by
      unfold notif_week_exercises dash_last7_exercises inNotifWeek inDashWeek
      rw [show (today - 1) - 6 = today - 7 by ring]
    constructor
    · unfold notif_weekly_cardio dash_cardio_7d
      rw [hw]
    · unfold notif_weekly_strength dash_strength_7d
      rw [hw]
  · intro today
    constructor
    · simp only [inNotifWeek, Bool.and_eq_false_iff, decide_eq_false_iff_not]
      right; omega
    · simp only [inDashWeek, Bool.and_eq_false_iff, decide_eq_false_iff_not]
      right; omega

/-- C5: monthly expected pace is the goal times elapsed-over-total days,
rounded to nearest integer: with goal 16 and 15 of 30 days elapsed the
expected pace is 8, an actual count of 5 is behind pace (5 is less than
expected minus 1), and the recommendation cascade then fires the
monthly-cardio pacing rule (the code's priority 7). -/
theorem c5_monthly_pace_example :
    cardio_expected_pace 15 30 = 8 ∧
    ((5:Int) < cardio_expected_pace 15 30 - 1) ∧
    get_today_suggestion 0 4 3 5 10 (cardio_expected_pace 15 30) 5 [] 0 false false =
      "MAF cardio (walk, run, or cycle)" := by
  have h : cardio_expected_pace 15 30 = 8 := by
    norm_num [cardio_expected_pace, progress_ratio, pyRound, MONTHLY_CARDIO_GOAL]
  refine ⟨h, by rw [h]; norm_num, by rw [h]; decide⟩

theorem runsAux_ne_nil (prev : Int) (run : ℕ) (l : List Int) : runsAux prev run l ≠ [] := by
  induction l generalizing prev run with
  | nil => simp [runsAux]
  | cons d rest ih =>
    simp only [runsAux]
    split
    · exact ih d (run + 1)
    · simp

theorem getLastD_indep (l : List ℕ) (h : l ≠ []) (a b : ℕ) : l.getLastD a = l.getLastD b := by
  cases l with
  | nil => exact absurd rfl h
  | cons x t => rw [List.getLastD_cons, List.getLastD_cons]

theorem getLastD_mem : ∀ (l : List ℕ) (d : ℕ), l ≠ [] → l.getLastD d ∈ l := by
  intro l
  induction l with
  | nil => intro d h; exact absurd rfl h
  | cons x t ih =>
    intro d _
    rw [List.getLastD_cons]
    cases t with
    | nil => simp [List.getLastD]
    | cons y u => exact List.mem_cons_of_mem x (ih x (by simp))

theorem mem_le_foldr_max (a : ℕ) (l : List ℕ) (h : a ∈ l) : a ≤ l.foldr max 0 := by
  induction l with
  | nil => cases h
  | cons b t ih =>
    rw [List.foldr_cons]
    rcases List.mem_cons.mp h with rfl | h'
    · exact le_max_left _ _
    · exact (ih h').trans (le_max_right _ _)

theorem runsAux_last_spec (S : List Int) (l : List Int) :
    ∀ (prev : Int) (run : ℕ),
    List.Chain (· < ·) prev l →
    (∀ x ∈ prev :: l, x ∈ S) →
    (∀ j : ℕ, j < run → prev - (j : Int) ∈ S) →
    prev - (run : Int) ∉ S →
    (∀ x ∈ S, x ≤ prev ∨ x ∈ l) →
    (∀ j : ℕ, j < (runsAux prev run l).getLastD 0 →
        (prev :: l).getLast (List.cons_ne_nil _ _) - (j : Int) ∈ S) ∧
    (prev :: l).getLast (List.cons_ne_nil _ _) -
        ((runsAux prev run l).getLastD 0 : Int) ∉ S := by
  induction l with
  | nil =>
    intro prev run _ _ hmem hnot _
    simpa [runsAux] using ⟨hmem, hnot⟩
  | cons d rest ih =>
    intro prev run hchain hsub hmem hnot hupper
    rw [List.chain_cons] at hchain
    obtain ⟨hpd, hchain'⟩ := hchain
    have hdS : d ∈ S := hsub d (by simp)
    have hrest_gt : ∀ x ∈ rest, d < x := by
      have hp : List.Pairwise (· < ·) (d :: rest) := (List.chain_iff_pairwise).mp hchain'
      exact fun x hx => (List.pairwise_cons.mp hp).1 x hx
    have hgetLast : (prev :: d :: rest).getLast (List.cons_ne_nil _ _) =
        (d :: rest).getLast (List.cons_ne_nil _ _) := List.getLast_cons _
    simp only [runsAux]
    split_ifs with heq
    · rw [hgetLast]
      apply ih d (run + 1) hchain' (fun x hx => hsub x (List.mem_cons_of_mem _ hx))
      · intro j hj
        cases j with
        | zero => simpa using hdS
        | succ k =>
          have hcast : d - ((k + 1 : ℕ) : Int) = prev - (k : Int) := by push_cast; omega
          rw [hcast]
          exact hmem k (by omega)
      · have hcast : d - ((run + 1 : ℕ) : Int) = prev - (run : Int) := by push_cast; omega
        rw [hcast]; exact hnot
      · intro x hx
        rcases hupper x hx with h | h
        · left; omega
        · rcases List.mem_cons.mp h with rfl | h'
          · left; omega
          · right; exact h'
    · have hrw : (run :: runsAux d 1 rest).getLastD 0 = (runsAux d 1 rest).getLastD 0 := by
        rw [List.getLastD_cons]
        exact getLastD_indep _ (runsAux_ne_nil _ _ _) run 0
      rw [hgetLast, hrw]
      apply ih d 1 hchain' (fun x hx => hsub x (List.mem_cons_of_mem _ hx))
      · intro j hj
        interval_cases j
        simpa using hdS
      · intro hmemd1
        rcases hupper _ hmemd1 with h | h
        · omega
        · rcases List.mem_cons.mp h with h' | h'
          · omega
          · exact absurd (hrest_gt _ h') (by omega)
      · intro x hx
        rcases hupper x hx with h | h
        · left; omega
        · rcases List.mem_cons.mp h with rfl | h'
          · left; omega
          · right; exact h'

theorem mem_activityDates (exs : List Exercise) (x : Int) :
    x ∈ activityDates exs ↔ x ∈ exs.map Exercise.date :=
  ((List.perm_insertionSort _ _).mem_iff).trans List.mem_dedup

theorem activityDates_sorted (exs : List Exercise) :
    List.Sorted (· ≤ ·) (activityDates exs) :=
  List.sorted_insertionSort _ _

theorem activityDates_nodup (exs : List Exercise) : (activityDates exs).Nodup :=
  ((List.perm_insertionSort _ _).nodup_iff).mpr (List.nodup_dedup _)

theorem activityDates_pairwise_lt (exs : List Exercise) :
    List.Pairwise (· < ·) (activityDates exs) := by
  have h1 := activityDates_sorted exs
  have h2 := activityDates_nodup exs
  exact List.Pairwise.imp₂ (fun a b hle hne => lt_of_le_of_ne hle hne) h1 h2

theorem sorted_le_getLast : ∀ (l : List Int), List.Sorted (· ≤ ·) l →
    ∀ (h : l ≠ []) (x : Int), x ∈ l → x ≤ l.getLast h := by
  intro l
  induction l with
  | nil => intro _ h; exact absurd rfl h
  | cons a t ih =>
    intro hs h x hx
    rcases List.mem_cons.mp hx with rfl | hx'
    · cases t with
      | nil => simp [List.getLast]
      | cons b u =>
        rw [List.getLast_cons (by simp)]
        have hmem : (b :: u).getLast (by simp) ∈ b :: u := List.getLast_mem _
        exact List.rel_of_sorted_cons hs _ hmem
    · have ht : t ≠ [] := List.ne_nil_of_mem hx'
      cases t with
      | nil => exact absurd rfl ht
      | cons b u =>
        rw [List.getLast_cons (by simp)]
        exact ih hs.of_cons (by simp) x hx'

/-- C2 counterexample: a history with a single activity dated 5 days after
the reference date.  The most recent activity date is neither today nor
yesterday, so the claim as stated requires a current streak of 0, but the
code returns 1 (it only breaks the streak when more than one day has
elapsed, which never holds for a future-dated activity). -/
theorem c2_counterexample :
    calculate_streak [⟨10, ["Run"]⟩] 5 = (1, 1) ∧
    ¬ ((10 : Int) = 5 ∨ (10 : Int) = 5 - 1) := by
  constructor
  · decide
  · decide

/-- C2 (amended): for every non-empty history and reference date, with X
the most recent activity date, the current streak is the length of the
maximal run of consecutive calendar days ending at X whenever at most one
day has elapsed since X (which includes today, yesterday and any
future-dated X), and is 0 once more than one day has elapsed. -/
theorem c2_current_streak_spec (exs : List Exercise) (today : Int) (hne : exs ≠ []) :
    ∃ X : Int,
      (X ∈ exs.map Exercise.date ∧ ∀ d ∈ exs.map Exercise.date, d ≤ X) ∧
      (today - X ≤ 1 →
        (∀ j : ℕ, j < (calculate_streak exs today).1 →
          X - (j : Int) ∈ exs.map Exercise.date) ∧
        X - ((calculate_streak exs today).1 : Int) ∉ exs.map Exercise.date) ∧
      (1 < today - X → (calculate_streak exs today).1 = 0) := by
  have hmapne : exs.map Exercise.date ≠ [] := by
    cases exs with
    | nil => exact absurd rfl hne
    | cons e t => simp
  have hLne : activityDates exs ≠ [] := by
    intro h
    obtain ⟨x, hx⟩ := List.exists_mem_of_ne_nil _ hmapne
    have : x ∈ activityDates exs := (mem_activityDates exs x).mpr hx
    rw [h] at this
    cases this
  obtain ⟨d, rest, hL⟩ : ∃ d rest, activityDates exs = d :: rest := by
    cases hL' : activityDates exs with
    | nil => exact absurd hL' hLne
    | cons d rest => exact ⟨d, rest, rfl⟩
  have hpl : List.Pairwise (· < ·) (d :: rest) := by
    rw [← hL]; exact activityDates_pairwise_lt exs
  refine ⟨(d :: rest).getLast (List.cons_ne_nil d rest), ⟨?_, ?_⟩, ?_, ?_⟩
  · have hmem : (d :: rest).getLast (List.cons_ne_nil d rest) ∈ activityDates exs := by
      rw [hL]; exact List.getLast_mem _
    exact (mem_activityDates exs _).mp hmem
  · intro x hx
    have hx' : x ∈ activityDates exs := (mem_activityDates exs x).mpr hx
    rw [hL] at hx'
    have hs : List.Sorted (· ≤ ·) (d :: rest) := by
      rw [← hL]; exact activityDates_sorted exs
    exact sorted_le_getLast _ hs _ x hx'
  · intro hcond
    have key := runsAux_last_spec (d :: rest) rest d 1
      ((List.chain_iff_pairwise).mpr hpl)
      (fun x hx => hx)
      (by
        intro j hj
        interval_cases j
        simp)
      (by
        intro hmem
        have hd_le : ∀ x ∈ d :: rest, d ≤ x := by
          intro x hx
          rcases List.mem_cons.mp hx with rfl | hx'
          · exact le_rfl
          · exact le_of_lt ((List.pairwise_cons.mp hpl).1 x hx')
        have := hd_le _ hmem
        omega)
      (by
        intro x hx
        rcases List.mem_cons.mp hx with rfl | hx'
        · exact Or.inl le_rfl
        · exact Or.inr hx')
    have hcs : (calculate_streak exs today).1 = (runsAux d 1 rest).getLastD 0 := by
      simp only [calculate_streak, hL]
      rw [if_neg (by omega)]
    have hmemiff : ∀ x : Int, x ∈ (d :: rest) ↔ x ∈ exs.map Exercise.date := by
      intro x
      rw [← hL]
      exact mem_activityDates exs x
    rw [hcs]
    constructor
    · intro j hj
      exact (hmemiff _).mp (key.1 j hj)
    · intro hmem
      exact key.2 ((hmemiff _).mpr hmem)
  · intro hcond
    simp only [calculate_streak, hL]
    rw [if_pos (by omega)]

/-- C2 witness: the amended theorem applied to activities on days 7 and 8
with reference date 9. -/
theorem c2_current_streak_spec_witness :
    ([⟨7, ["Run"]⟩, ⟨8, ["Walk"]⟩] : List Exercise) ≠ [] ∧
    (∃ X : Int,
      (X ∈ ([⟨7, ["Run"]⟩, ⟨8, ["Walk"]⟩] : List Exercise).map Exercise.date ∧
        ∀ d ∈ ([⟨7, ["Run"]⟩, ⟨8, ["Walk"]⟩] : List Exercise).map Exercise.date, d ≤ X) ∧
      ((9 : Int) - X ≤ 1 →
        (∀ j : ℕ, j < (calculate_streak [⟨7, ["Run"]⟩, ⟨8, ["Walk"]⟩] 9).1 →
          X - (j : Int) ∈ ([⟨7, ["Run"]⟩, ⟨8, ["Walk"]⟩] : List Exercise).map Exercise.date) ∧
        X - ((calculate_streak [⟨7, ["Run"]⟩, ⟨8, ["Walk"]⟩] 9).1 : Int) ∉
          ([⟨7, ["Run"]⟩, ⟨8, ["Walk"]⟩] : List Exercise).map Exercise.date) ∧
      (1 < (9 : Int) - X → (calculate_streak [⟨7, ["Run"]⟩, ⟨8, ["Walk"]⟩] 9).1 = 0)) :=
  ⟨by decide, c2_current_streak_spec [⟨7, ["Run"]⟩, ⟨8, ["Walk"]⟩] 9 (by decide)⟩

/-- C3: for every activity history the longest streak is at least the
current streak; the empty history yields (0, 0); and a single activity
record dated within 1 day of the reference date yields current and longest
streak both 1. -/
theorem c3_streak_invariants :
    (∀ (exs : List Exercise) (today : Int),
      (calculate_streak exs today).1 ≤ (calculate_streak exs today).2) ∧
    (∀ today : Int, calculate_streak [] today = (0, 0)) ∧
    (∀ (e : Exercise) (today : Int), |e.date - today| ≤ 1 →
      calculate_streak [e] today = (1, 1)) := by
  refine ⟨?_, ?_, ?_⟩
  · intro exs today
    cases hL : activityDates exs with
    | nil => simp [calculate_streak, hL]
    | cons d rest =>
      simp only [calculate_streak, hL]
      split_ifs with h
      · exact Nat.zero_le _
      · exact mem_le_foldr_max _ _ (getLastD_mem _ _ (runsAux_ne_nil _ _ _))
  · intro today
    rfl
  · intro e today habs
    have hL : activityDates [e] = [e.date] := by
      simp [activityDates, List.insertionSort]
    have hcond : ¬ (today - e.date > 1) := by
      rw [abs_le] at habs
      omega
    simp only [calculate_streak, hL, runsAux]
    rw [if_neg (by simpa [List.getLast] using hcond)]
    rfl

/-- C3 witness: a single activity on day 5 with reference date 5. -/
theorem c3_streak_invariants_witness :
    |(5 : Int) - 5| ≤ 1 ∧ calculate_streak [⟨5, ["Run"]⟩] 5 = (1, 1) :=
  ⟨by decide, c3_streak_invariants.2.2 ⟨5, ["Run"]⟩ 5 (by decide)⟩

theorem mem_rolling_window_self (ws : List WEntry) (w : WEntry) (h : w ∈ ws) :
    w ∈ rolling_window ws w.date := by
  unfold rolling_window
  refine List.mem_filter.mpr ⟨h, ?_⟩
  simp only [Bool.and_eq_true, decide_eq_true_eq]
  omega

/-- C10: the 10-day rolling-average window of any weight observation
contains that observation itself, so the mean's denominator is positive
and the empty-window fallback branch is unreachable. -/
theorem c10_window_never_empty (ws : List WEntry) (w : WEntry) (h : w ∈ ws) :
    rolling_window ws w.date ≠ [] ∧ 0 < (rolling_window ws w.date).length := by
  have hm := mem_rolling_window_self ws w h
  have hne := List.ne_nil_of_mem hm
  exact ⟨hne, List.length_pos.mpr hne⟩

/-- C10 witness: a single observation on day 0. -/
theorem c10_window_never_empty_witness :
    (⟨0, 80⟩ : WEntry) ∈ [(⟨0, 80⟩ : WEntry)] ∧
    rolling_window [(⟨0, 80⟩ : WEntry)] 0 ≠ [] ∧
    0 < (rolling_window [(⟨0, 80⟩ : WEntry)] 0).length :=
  ⟨List.mem_cons_self _ _,
   c10_window_never_empty [⟨0, 80⟩] ⟨0, 80⟩ (List.mem_cons_self _ _)⟩

/-- C6 counterexample: a single observation of 85.26 kg.  Its window
contains only itself, so the claim requires the rolling average to equal
85.26, but the code rounds the mean to one decimal and returns 85.3. -/
theorem c6_counterexample :
    rolling_avg [⟨0, 8526/100⟩] ⟨0, 8526/100⟩ = 853/10 ∧
    (853/10 : ℚ) ≠ 8526/100 := by
  have hw : rolling_window [(⟨0, 8526/100⟩ : WEntry)] 0 = [⟨0, 8526/100⟩] := by
    norm_num [rolling_window]
  constructor
  · simp only [rolling_avg, hw]
    rw [if_neg (List.cons_ne_nil _ _)]
    norm_num [round1, pyRound]
  · norm_num

/-- C6 (amended): for every weight observation in the history, the rolling
average equals the arithmetic mean of the observations in the window
(D - 10, D], rounded to one decimal; when the window contains only the
observation itself it equals that observation's own weight rounded to one
decimal. -/
theorem c6_rolling_avg_spec (ws : List WEntry) (w : WEntry) (h : w ∈ ws) :
    rolling_avg ws w =
      round1 (((rolling_window ws w.date).map WEntry.weight).sum /
        ((rolling_window ws w.date).length : ℚ)) ∧
    (rolling_window ws w.date = [w] → rolling_avg ws w = round1 w.weight) := by
  have hne : rolling_window ws w.date ≠ [] :=
    List.ne_nil_of_mem (mem_rolling_window_self ws w h)
  constructor
  · unfold rolling_avg
    rw [if_neg hne]
  · intro hw
    unfold rolling_avg
    rw [if_neg hne, hw]
    norm_num

/-- C6 witness: the amended theorem applied to a 2-observation history. -/
theorem c6_rolling_avg_spec_witness :
    (⟨5, 90⟩ : WEntry) ∈ [(⟨5, 90⟩ : WEntry), ⟨0, 91⟩] ∧
    (rolling_avg [(⟨5, 90⟩ : WEntry), ⟨0, 91⟩] ⟨5, 90⟩ =
      round1 (((rolling_window [(⟨5, 90⟩ : WEntry), ⟨0, 91⟩] 5).map WEntry.weight).sum /
        ((rolling_window [(⟨5, 90⟩ : WEntry), ⟨0, 91⟩] 5).length : ℚ)) ∧
    (rolling_window [(⟨5, 90⟩ : WEntry), ⟨0, 91⟩] 5 = [⟨5, 90⟩] →
      rolling_avg [(⟨5, 90⟩ : WEntry), ⟨0, 91⟩] ⟨5, 90⟩ = round1 (90 : ℚ))) :=
  ⟨List.mem_cons_self _ _,
   c6_rolling_avg_spec [⟨5, 90⟩, ⟨0, 91⟩] ⟨5, 90⟩ (List.mem_cons_self _ _)⟩

/-- C8 counterexample: latest weight 82.04 with target 82 and a 30-day
change of -2.  The current weight strictly exceeds the target and the
30-day change is strictly negative, so the claim requires a projection,
but kg_to_go rounds 0.04 to one decimal giving 0, which fails the Python
truthiness guard, and no projection is produced. -/
theorem c8_counterexample :
    projected_days (weight_change_30d [⟨100, 8204/100⟩, ⟨90, 8404/100⟩] 110)
        (kg_to_go [⟨100, 8204/100⟩, ⟨90, 8404/100⟩]) = none ∧
    weight_change_30d [⟨100, 8204/100⟩, ⟨90, 8404/100⟩] 110 = some (-2) ∧
    (82 : ℚ) < 8204/100 ∧
    latest_weight [⟨100, 8204/100⟩, ⟨90, 8404/100⟩] = some (8204/100) := by
  have hr2 : round1 (-2) = -2 := by
    rw [round1, show (10 : ℚ) * (-2 : ℚ) = ((-20 : Int) : ℚ) by norm_num, pyRound_intCast]
    norm_num
  have hr0 : round1 (8204/100 - 82) = 0 := by
    have h10 : (10 : ℚ) * (8204/100 - 82) = 2/5 := by norm_num
    have hf : ⌊(2/5 : ℚ)⌋ = 0 := by norm_num [Int.floor_eq_iff]
    rw [round1, h10, pyRound_of_lt_half _ (by rw [hf]; norm_num), hf]
    norm_num
  have h30 : weight_change_30d [(⟨100, 8204/100⟩ : WEntry), ⟨90, 8404/100⟩] 110 =
      some (-2) := by
    simp only [weight_change_30d, wLastByDate, wFirstByDate, List.filter, List.foldl]
    norm_num [hr2]
  have hkg : kg_to_go [(⟨100, 8204/100⟩ : WEntry), ⟨90, 8404/100⟩] = some 0 := by
    simp only [kg_to_go, latest_weight, List.head?, Option.map]
    rw [hr0]
  refine ⟨?_, h30, by norm_num, by norm_num [latest_weight]⟩
  rw [h30, hkg]
  simp [projected_days]

/-- C8 (amended): a projection is produced iff the 30-day change exists
and is strictly negative and the rounded-to-one-decimal difference between
current and target weight is strictly positive; the projected days equal
that rounded difference divided by the absolute 30-day rate, times 30.
With current 90, target 82 and change -2 this gives 120 days; a change of
+1 yields no projection. -/
theorem c8_projection_spec :
    (∀ c k : ℚ, projected_days (some c) (some k) =
      if c < 0 ∧ 0 < k then some (k / |c| * 30) else none) ∧
    (∀ o : Option ℚ, projected_days none o = none ∧ projected_days o none = none) ∧
    projected_days (some (-2)) (kg_to_go [⟨0, 90⟩]) = some 120 ∧
    projected_days (some 1) (kg_to_go [⟨0, 90⟩]) = none := by
  have hkg : kg_to_go [(⟨0, 90⟩ : WEntry)] = some 8 := by
    have hr8 : round1 ((90 : ℚ) - 82) = 8 := by
      rw [round1, show (10 : ℚ) * ((90 : ℚ) - 82) = ((80 : Int) : ℚ) by norm_num,
        pyRound_intCast]
      norm_num
    simp only [kg_to_go, latest_weight, List.head?, Option.map]
    rw [hr8]
  refine ⟨?_, ?_, ?_, ?_⟩
  · intro c k
    simp only [projected_days]
    by_cases hc : c < 0 <;> by_cases hk : 0 < k
    · rw [if_pos ⟨ne_of_lt hc, hc, ne_of_gt hk, hk⟩,
        if_pos (abs_pos.mpr (ne_of_lt hc)), if_pos ⟨hc, hk⟩]
    · rw [if_neg (by tauto), if_neg (by tauto)]
    · rw [if_neg (by tauto), if_neg (by tauto)]
    · rw [if_neg (by tauto), if_neg (by tauto)]
  · intro o
    refine ⟨by cases o <;> rfl, by cases o <;> rfl⟩
  · rw [hkg]
    have habs : |(-2 : ℚ)| = 2 := by norm_num
    simp only [projected_days]
    rw [if_pos (by norm_num), if_pos (by rw [habs]; norm_num), habs]
    norm_num
  · rw [hkg]
    simp only [projected_days]
    rw [if_neg (by norm_num)]

theorem hdate_eq_iff (a b : HDate) : a = b ↔ (a.y = b.y ∧ a.m = b.m ∧ a.d = b.d) := by
  cases a; cases b; simp

theorem dateLt_true_iff (a b : HDate) : dateLt a b = true ↔
    (a.y < b.y ∨ (a.y = b.y ∧ (a.m < b.m ∨ (a.m = b.m ∧ a.d < b.d)))) := by
  simp [dateLt]

theorem dateLe_true_iff (a b : HDate) : dateLe a b = true ↔
    (a.y < b.y ∨ (a.y = b.y ∧ (a.m < b.m ∨ (a.m = b.m ∧ a.d ≤ b.d)))) := by
  simp only [dateLe, Bool.or_eq_true, dateLt_true_iff, decide_eq_true_eq, hdate_eq_iff]
  omega

theorem monthIdxLt_true_iff (a : HDate) (year month : Int) :
    monthIdxLt a year month = true ↔ (a.y < year ∨ (a.y = year ∧ a.m < month)) := by
  simp [monthIdxLt]

theorem sameMonth_true_iff (a b : HDate) :
    sameMonth a b = true ↔ (a.y = b.y ∧ a.m = b.m) := by
  simp [sameMonth]

theorem dateLe_refl (a : HDate) : dateLe a a = true := by
  rw [dateLe_true_iff]; omega

theorem dateLe_of_dateLt {a b : HDate} (h : dateLt a b = true) : dateLe a b = true := by
  rw [dateLt_true_iff] at h; rw [dateLe_true_iff]; omega

theorem dateLe_trans {a b c : HDate} (h1 : dateLe a b = true) (h2 : dateLe b c = true) :
    dateLe a c = true := by
  rw [dateLe_true_iff] at h1 h2 ⊢; omega

theorem dateLt_of_not_dateLe {a b : HDate} (h : ¬ dateLe a b = true) :
    dateLt b a = true := by
  rw [dateLe_true_iff] at h; rw [dateLt_true_iff]; omega

theorem dateLe_eq_false_of_dateLt {a b : HDate} (h : dateLt a b = true) :
    dateLe b a = false := by
  refine Bool.eq_false_iff.mpr fun hc => ?_
  rw [dateLt_true_iff] at h
  rw [dateLe_true_iff] at hc
  omega

theorem dateLt_of_dateLe_of_ne {a b : HDate} (h1 : dateLe a b = true) (h2 : a ≠ b) :
    dateLt a b = true := by
  have h2' : ¬(a.y = b.y ∧ a.m = b.m ∧ a.d = b.d) := fun hc => h2 ((hdate_eq_iff a b).mpr hc)
  rw [dateLe_true_iff] at h1
  rw [dateLt_true_iff]
  omega

theorem sameMonth_self (a : HDate) : sameMonth a a = true := by
  rw [sameMonth_true_iff]; exact ⟨rfl, rfl⟩

theorem mLast_aux_mem : ∀ (l : List MWeight) (acc : Option MWeight) (w : MWeight),
    List.foldl mLastStep acc l = some w → acc = some w ∨ w ∈ l := by
  intro l
  induction l with
  | nil => intro acc w h; exact Or.inl h
  | cons x t ih =>
    intro acc w h
    rw [List.foldl_cons] at h
    rcases ih _ w h with hstep | hmem
    · cases acc with
      | none =>
        simp only [mLastStep, Option.some.injEq] at hstep
        exact Or.inr (hstep ▸ List.mem_cons_self x t)
      | some v =>
        simp only [mLastStep] at hstep
        split_ifs at hstep with hle
        · simp only [Option.some.injEq] at hstep
          exact Or.inr (hstep ▸ List.mem_cons_self x t)
        · exact Or.inl hstep
    · exact Or.inr (List.mem_cons_of_mem _ hmem)

theorem mLast_aux_le : ∀ (l : List MWeight) (acc : Option MWeight) (w : MWeight),
    List.foldl mLastStep acc l = some w →
    (∀ v ∈ l, dateLe v.date w.date = true) ∧
    (∀ u, acc = some u → dateLe u.date w.date = true) := by
  intro l
  induction l with
  | nil =>
    intro acc w h
    refine ⟨fun v hv => absurd hv (List.not_mem_nil v), fun u hu => ?_⟩
    rw [hu] at h
    injection h with h'
    rw [h']
    exact dateLe_refl _
  | cons x t ih =>
    intro acc w h
    rw [List.foldl_cons] at h
    obtain ⟨ht, hacc'⟩ := ih _ w h
    have hx : dateLe x.date w.date = true := by
      cases acc with
      | none => exact hacc' x rfl
      | some v =>
        by_cases hle : dateLe v.date x.date = true
        · exact hacc' x (by simp [mLastStep, hle])
        · have h1 : dateLe x.date v.date = true :=
            dateLe_of_dateLt (dateLt_of_not_dateLe hle)
          have h2 : dateLe v.date w.date = true := hacc' v (by simp [mLastStep, hle])
          exact dateLe_trans h1 h2
    refine ⟨?_, ?_⟩
    · intro v hv
      rcases List.mem_cons.mp hv with rfl | hv'
      · exact hx
      · exact ht v hv'
    · intro u hu
      subst hu
      by_cases hle : dateLe u.date x.date = true
      · exact dateLe_trans hle hx
      · exact hacc' u (by simp [mLastStep, hle])

theorem mLast_keep (w : MWeight) : ∀ (t : List MWeight),
    (∀ v ∈ t, v = w ∨ dateLt v.date w.date = true) →
    List.foldl mLastStep (some w) t = some w := by
  intro t
  induction t with
  | nil => intro _; rfl
  | cons x u ih =>
    intro hmax
    rw [List.foldl_cons]
    rcases hmax x (List.mem_cons_self x u) with rfl | hlt
    · rw [show mLastStep (some x) x = some x by simp [mLastStep, dateLe_refl]]
      exact ih fun v hv => hmax v (List.mem_cons_of_mem _ hv)
    · rw [show mLastStep (some w) x = some w by
        simp [mLastStep, dateLe_eq_false_of_dateLt hlt]]
      exact ih fun v hv => hmax v (List.mem_cons_of_mem _ hv)

theorem mLast_reach : ∀ (l : List MWeight) (acc : Option MWeight) (w : MWeight),
    w ∈ l →
    (∀ v ∈ l, v ≠ w → dateLt v.date w.date = true) →
    (acc = none ∨ ∃ u, acc = some u ∧ (u = w ∨ dateLt u.date w.date = true)) →
    List.foldl mLastStep acc l = some w := by
  intro l
  induction l with
  | nil => intro acc w hw; exact absurd hw (List.not_mem_nil w)
  | cons x t ih =>
    intro acc w hw hmax hinv
    rw [List.foldl_cons]
    by_cases hx : x = w
    · subst hx
      have hstep : mLastStep acc x = some x := by
        rcases hinv with rfl | ⟨u, rfl, hu⟩
        · rfl
        · rcases hu with rfl | hlt
          · simp [mLastStep, dateLe_refl]
          · simp [mLastStep, dateLe_of_dateLt hlt]
      rw [hstep]
      exact mLast_keep x t fun v hv => by
        by_cases hvx : v = x
        · exact Or.inl hvx
        · exact Or.inr (hmax v (List.mem_cons_of_mem _ hv) hvx)
    · have hxlt : dateLt x.date w.date = true := hmax x (List.mem_cons_self x t) hx
      have hw' : w ∈ t := by
        rcases List.mem_cons.mp hw with rfl | h'
        · exact absurd rfl hx
        · exact h'
      apply ih _ w hw' (fun v hv hvw => hmax v (List.mem_cons_of_mem _ hv) hvw)
      rcases hinv with rfl | ⟨u, rfl, hu⟩
      · exact Or.inr ⟨x, rfl, Or.inr hxlt⟩
      · rcases hu with rfl | hult
        · refine Or.inr ⟨u, ?_, Or.inl rfl⟩
          simp [mLastStep, dateLe_eq_false_of_dateLt hxlt]
        · by_cases hle : dateLe u.date x.date = true
          · exact Or.inr ⟨x, by simp [mLastStep, hle], Or.inr hxlt⟩
          · exact Or.inr ⟨u, by simp [mLastStep, hle], Or.inr hult⟩

theorem mLastByDate_mem {l : List MWeight} {w : MWeight} (h : mLastByDate l = some w) :
    w ∈ l := by
  rcases mLast_aux_mem l none w h with h' | h'
  · cases h'
  · exact h'

theorem mLastByDate_le {l : List MWeight} {w : MWeight} (h : mLastByDate l = some w) :
    ∀ v ∈ l, dateLe v.date w.date = true :=
  (mLast_aux_le l none w h).1

theorem prev_filter_eq (ws : List MWeight) (year month : Int)
    (hd : ∀ w ∈ ws, 1 ≤ w.date.d) :
    prev_month_weights ws year month =
      ws.filter (fun w => monthIdxLt w.date year month) := by
  unfold prev_month_weights
  apply List.filter_congr
  intro w hw
  have h1 := hd w hw
  have hiff : dateLt w.date (month_start year month) = true ↔
      monthIdxLt w.date year month = true := by
    rw [dateLt_true_iff, monthIdxLt_true_iff]
    simp only [month_start]
    omega
  exact Bool.eq_iff_iff.mpr hiff

theorem spec_prev_eq (ws : List MWeight) (year month : Int)
    (hd : ∀ w ∈ ws, 1 ≤ w.date.d)
    (hnd : (ws.map MWeight.date).Nodup) :
    spec_prev_month_last ws year month =
      (mLastByDate (prev_month_weights ws year month)).map MWeight.weight := by
  rw [prev_filter_eq ws year month hd]
  unfold spec_prev_month_last
  cases hq : mLastByDate (ws.filter fun w => monthIdxLt w.date year month) with
  | none => rfl
  | some w0 =>
    have hw0Q := mLastByDate_mem hq
    have hw0ws : w0 ∈ ws := (List.mem_filter.mp hw0Q).1
    have hw0P : monthIdxLt w0.date year month = true := (List.mem_filter.mp hw0Q).2
    have hM : mLastByDate (ws.filter fun w => sameMonth w.date w0.date) = some w0 := by
      unfold mLastByDate
      apply mLast_reach _ none w0
      · exact List.mem_filter.mpr ⟨hw0ws, sameMonth_self _⟩
      · intro v hv hvne
        have hvws : v ∈ ws := (List.mem_filter.mp hv).1
        have hvsm : sameMonth v.date w0.date = true := (List.mem_filter.mp hv).2
        have hvQ : v ∈ ws.filter fun w => monthIdxLt w.date year month := by
          refine List.mem_filter.mpr ⟨hvws, ?_⟩
          rw [monthIdxLt_true_iff]
          rw [sameMonth_true_iff] at hvsm
          rw [monthIdxLt_true_iff] at hw0P
          omega
        have hle := mLastByDate_le hq v hvQ
        have hdne : v.date ≠ w0.date := fun hc =>
          hvne (List.inj_on_of_nodup_map hnd hvws hw0ws hc)
        exact dateLt_of_dateLe_of_ne hle hdne
      · exact Or.inl rfl
    show Option.map MWeight.weight
        (mLastByDate (List.filter (fun w => sameMonth w.date w0.date) ws)) =
      Option.map MWeight.weight (some w0)
    rw [hM]

/-- C7 counterexample: weights recorded only in February 2026, so February
is the very first tracked month and no prior month has data.  The claim
requires the fallback (last minus first within the month), but the code's
fallback is hardcoded to January 2026 and reports no change at all. -/
theorem c7_counterexample :
    month_weight_change [⟨⟨2026, 2, 10⟩, 90⟩, ⟨⟨2026, 2, 20⟩, 89⟩] 2026 2 = none ∧
    month_weights [⟨⟨2026, 2, 10⟩, 90⟩, ⟨⟨2026, 2, 20⟩, 89⟩] 2026 2 ≠ [] ∧
    prev_month_weights [⟨⟨2026, 2, 10⟩, 90⟩, ⟨⟨2026, 2, 20⟩, 89⟩] 2026 2 = [] := by
  refine ⟨rfl, ?_, rfl⟩
  intro h
  exact List.cons_ne_nil _ _ (by
    have : month_weights [⟨⟨2026, 2, 10⟩, 90⟩, ⟨⟨2026, 2, 20⟩, 89⟩] 2026 2 =
        [⟨⟨2026, 2, 10⟩, 90⟩, ⟨⟨2026, 2, 20⟩, 89⟩] := rfl
    rw [this] at h
    exact h)

/-- C7 (amended): for every month with at least one weight record (and
per-day-unique, day-valid dates), the month's change equals the last
weight in the month minus the last weight of the nearest preceding month
that has data, rounded to one decimal; when no prior month has data, the
fallback (last minus first within the month) applies exactly when the
month is January 2026 — not for whichever month happens to be the first
tracked one — and otherwise no change is reported. -/
theorem c7_month_change_spec (ws : List MWeight) (year month : Int)
    (hd : ∀ w ∈ ws, 1 ≤ w.date.d)
    (hnd : (ws.map MWeight.date).Nodup) :
    (∀ lw fw, mLastByDate (month_weights ws year month) = some lw →
      mFirstByDate (month_weights ws year month) = some fw →
      (∀ p, spec_prev_month_last ws year month = some p →
        month_weight_change ws year month = some (round1 (lw.weight - p))) ∧
      (spec_prev_month_last ws year month = none →
        (year = 2026 ∧ month = 1 →
          month_weight_change ws year month = some (round1 (lw.weight - fw.weight))) ∧
        (¬(year = 2026 ∧ month = 1) →
          month_weight_change ws year month = none))) ∧
    (mLastByDate (month_weights ws year month) = none →
      month_weight_change ws year month = none) := by
  have hspec := spec_prev_eq ws year month hd hnd
  constructor
  · intro lw fw hlw hfw
    constructor
    · intro p hp
      rw [hspec] at hp
      obtain ⟨prevW, hprev, hpw⟩ := Option.map_eq_some'.mp hp
      simp only [month_weight_change, hlw, hfw, hprev]
      rw [hpw]
    · intro hnone
      rw [hspec] at hnone
      have hprev : mLastByDate (prev_month_weights ws year month) = none :=
        Option.map_eq_none'.mp hnone
      constructor
      · rintro ⟨hy, hm⟩
        simp only [month_weight_change, hlw, hfw, hprev]
        rw [if_pos ⟨hy, hm⟩]
      · intro hne
        simp only [month_weight_change, hlw, hfw, hprev]
        rw [if_neg hne]
  · intro hnone
    cases hf : mFirstByDate (month_weights ws year month) <;>
      simp [month_weight_change, hnone, hf]

/-- C7 witness: January and February 2026 weights; February's change is
the February last weight minus the January last weight, rounded. -/
theorem c7_month_change_spec_witness :
    (∀ w ∈ [(⟨⟨2026, 1, 5⟩, 95⟩ : MWeight), ⟨⟨2026, 2, 3⟩, 94⟩], 1 ≤ w.date.d) ∧
    (([(⟨⟨2026, 1, 5⟩, 95⟩ : MWeight), ⟨⟨2026, 2, 3⟩, 94⟩].map MWeight.date).Nodup) ∧
    month_weight_change [(⟨⟨2026, 1, 5⟩, 95⟩ : MWeight), ⟨⟨2026, 2, 3⟩, 94⟩] 2026 2 =
      some (round1 ((94 : ℚ) - 95)) :=
  ⟨by decide, by decide,
   ((c7_month_change_spec [⟨⟨2026, 1, 5⟩, 95⟩, ⟨⟨2026, 2, 3⟩, 94⟩] 2026 2
      (by decide) (by decide)).1 ⟨⟨2026, 2, 3⟩, 94⟩ ⟨⟨2026, 2, 3⟩, 94⟩ rfl rfl).1 95 rfl⟩

theorem contains_true_iff (l : List String) (x : String) : l.contains x = true ↔ x ∈ l := by
  simp

theorem sync_acts_created : ∀ (acts : List UpAct) (ex store : List String) (c s : ℕ),
    (sync_acts_loop ex acts store c s).1 =
      c + (acts.filter (fun a =>
        !ex.contains a.id && !SKIP_ACTIVITY_TYPES.contains a.category)).length := by
  intro acts
  induction acts with
  | nil => intro ex store c s; simp [sync_acts_loop]
  | cons a rest ih =>
    intro ex store c s
    simp only [sync_acts_loop]
    by_cases h1 : a.id ∈ ex
    · rw [if_pos (by simpa using h1), ih]
      simp [List.filter_cons, h1]
    · rw [if_neg (by simpa using h1)]
      by_cases h2 : a.category ∈ SKIP_ACTIVITY_TYPES
      · rw [if_pos (by simpa using h2), ih]
        simp [List.filter_cons, h1, h2]
      · rw [if_neg (by simpa using h2), ih]
        simp [List.filter_cons, h1, h2]
        omega

theorem sync_acts_skipped : ∀ (acts : List UpAct) (ex store : List String) (c s : ℕ),
    (sync_acts_loop ex acts store c s).2.1 =
      s + (acts.filter (fun a => ex.contains a.id)).length := by
  intro acts
  induction acts with
  | nil => intro ex store c s; simp [sync_acts_loop]
  | cons a rest ih =>
    intro ex store c s
    simp only [sync_acts_loop]
    by_cases h1 : a.id ∈ ex
    · rw [if_pos (by simpa using h1), ih]
      simp [List.filter_cons, h1]
      omega
    · rw [if_neg (by simpa using h1)]
      by_cases h2 : a.category ∈ SKIP_ACTIVITY_TYPES
      · rw [if_pos (by simpa using h2), ih]
        simp [List.filter_cons, h1]
      · rw [if_neg (by simpa using h2), ih]
        simp [List.filter_cons, h1]

theorem sync_acts_store : ∀ (acts : List UpAct) (ex store : List String) (c s : ℕ)
    (x : String),
    x ∈ (sync_acts_loop ex acts store c s).2.2 ↔
      (x ∈ store ∨ ∃ a ∈ acts, a.id = x ∧ a.id ∉ ex ∧
        a.category ∉ SKIP_ACTIVITY_TYPES) := by
  intro acts
  induction acts with
  | nil =>
    intro ex store c s x
    simp [sync_acts_loop]
  | cons a rest ih =>
    intro ex store c s x
    simp only [sync_acts_loop]
    by_cases h1 : a.id ∈ ex
    · rw [if_pos (by simpa using h1), ih]
      constructor
      · rintro (h | ⟨b, hb, rfl, hbex, hbskip⟩)
        · exact Or.inl h
        · exact Or.inr ⟨b, List.mem_cons_of_mem _ hb, rfl, hbex, hbskip⟩
      · rintro (h | ⟨b, hb, rfl, hbex, hbskip⟩)
        · exact Or.inl h
        · rcases List.mem_cons.mp hb with rfl | hb'
          · exact absurd h1 hbex
          · exact Or.inr ⟨b, hb', rfl, hbex, hbskip⟩
    · rw [if_neg (by simpa using h1)]
      by_cases h2 : a.category ∈ SKIP_ACTIVITY_TYPES
      · rw [if_pos (by simpa using h2), ih]
        constructor
        · rintro (h | ⟨b, hb, rfl, hbex, hbskip⟩)
          · exact Or.inl h
          · exact Or.inr ⟨b, List.mem_cons_of_mem _ hb, rfl, hbex, hbskip⟩
        · rintro (h | ⟨b, hb, rfl, hbex, hbskip⟩)
          · exact Or.inl h
          · rcases List.mem_cons.mp hb with rfl | hb'
            · exact absurd h2 hbskip
            · exact Or.inr ⟨b, hb', rfl, hbex, hbskip⟩
      · rw [if_neg (by simpa using h2), ih]
        have hstep : ∀ y : String,
            y ∈ (if store.contains a.id then store else a.id :: store) ↔
              (y = a.id ∨ y ∈ store) := by
          intro y
          split_ifs with hc
          · constructor
            · exact fun h => Or.inr h
            · rintro (rfl | h)
              · exact (contains_true_iff _ _).mp hc
              · exact h
          · exact List.mem_cons
        rw [hstep]
        constructor
        · rintro ((rfl | h) | ⟨b, hb, rfl, hbex, hbskip⟩)
          · exact Or.inr ⟨a, List.mem_cons_self a rest, rfl, h1, h2⟩
          · exact Or.inl h
          · exact Or.inr ⟨b, List.mem_cons_of_mem _ hb, rfl, hbex, hbskip⟩
        · rintro (h | ⟨b, hb, rfl, hbex, hbskip⟩)
          · exact Or.inl (Or.inr h)
          · rcases List.mem_cons.mp hb with rfl | hb'
            · exact Or.inl (Or.inl rfl)
            · exact Or.inr ⟨b, hb', rfl, hbex, hbskip⟩

theorem sync_weights_created : ∀ (entries : List UpWeight) (ex store : List String)
    (c s : ℕ),
    (sync_weights_loop ex entries store c s).1 =
      c + (entries.filter (fun w => !ex.contains w.wdate)).length := by
  intro entries
  induction entries with
  | nil => intro ex store c s; simp [sync_weights_loop]
  | cons w rest ih =>
    intro ex store c s
    simp only [sync_weights_loop]
    by_cases h1 : w.wdate ∈ ex
    · rw [if_pos (by simpa using h1), ih]
      simp [List.filter_cons, h1]
    · rw [if_neg (by simpa using h1), ih]
      simp [List.filter_cons, h1]
      omega

theorem sync_weights_skipped : ∀ (entries : List UpWeight) (ex store : List String)
    (c s : ℕ),
    (sync_weights_loop ex entries store c s).2.1 =
      s + (entries.filter (fun w => ex.contains w.wdate)).length := by
  intro entries
  induction entries with
  | nil => intro ex store c s; simp [sync_weights_loop]
  | cons w rest ih =>
    intro ex store c s
    simp only [sync_weights_loop]
    by_cases h1 : w.wdate ∈ ex
    · rw [if_pos (by simpa using h1), ih]
      simp [List.filter_cons, h1]
      omega
    · rw [if_neg (by simpa using h1), ih]
      simp [List.filter_cons, h1]

theorem sync_weights_store : ∀ (entries : List UpWeight) (ex store : List String)
    (c s : ℕ) (x : String),
    x ∈ (sync_weights_loop ex entries store c s).2.2 ↔
      (x ∈ store ∨ ∃ w ∈ entries, w.wdate = x ∧ w.wdate ∉ ex) := by
  intro entries
  induction entries with
  | nil =>
    intro ex store c s x
    simp [sync_weights_loop]
  | cons w rest ih =>
    intro ex store c s x
    simp only [sync_weights_loop]
    by_cases h1 : w.wdate ∈ ex
    · rw [if_pos (by simpa using h1), ih]
      constructor
      · rintro (h | ⟨b, hb, rfl, hbex⟩)
        · exact Or.inl h
        · exact Or.inr ⟨b, List.mem_cons_of_mem _ hb, rfl, hbex⟩
      · rintro (h | ⟨b, hb, rfl, hbex⟩)
        · exact Or.inl h
        · rcases List.mem_cons.mp hb with rfl | hb'
          · exact absurd h1 hbex
          · exact Or.inr ⟨b, hb', rfl, hbex⟩
    · rw [if_neg (by simpa using h1), ih]
      have hstep : ∀ y : String,
          y ∈ (if store.contains w.wdate then store else w.wdate :: store) ↔
            (y = w.wdate ∨ y ∈ store) := by
        intro y
        split_ifs with hc
        · constructor
          · exact fun h => Or.inr h
          · rintro (rfl | h)
            · exact (contains_true_iff _ _).mp hc
            · exact h
        · exact List.mem_cons
      rw [hstep]
      constructor
      · rintro ((rfl | h) | ⟨b, hb, rfl, hbex⟩)
        · exact Or.inr ⟨w, List.mem_cons_self w rest, rfl, h1⟩
        · exact Or.inl h
        · exact Or.inr ⟨b, List.mem_cons_of_mem _ hb, rfl, hbex⟩
      · rintro (h | ⟨b, hb, rfl, hbex⟩)
        · exact Or.inl (Or.inr h)
        · rcases List.mem_cons.mp hb with rfl | hb'
          · exact Or.inl (Or.inl rfl)
          · exact Or.inr ⟨b, hb', rfl, hbex⟩

/-- C9: re-running the importer with upstream data identical to a prior
successful run creates nothing: activities_created is 0 and
activities_skipped equals the number of upstream activities whose external
id is already in the existing-ids set, which is exactly the non-skip-list
records; weights_created is 0 and weights_skipped equals the number of
repeated weight dates (all of them).  Skip-list records are excluded
before classification and counted in neither total. -/
theorem c9_rerun_idempotent (existing0 : List String) (acts : List UpAct)
    (dates0 : List String) (entries : List UpWeight)
    (hnd : (acts.map UpAct.id).Nodup)
    (hskipfresh : ∀ a ∈ acts, a.category ∈ SKIP_ACTIVITY_TYPES → a.id ∉ existing0) :
    (sync_garmin_activities (sync_garmin_activities existing0 acts).2.2 acts).1 = 0 ∧
    (sync_garmin_activities (sync_garmin_activities existing0 acts).2.2 acts).2.1 =
      (acts.filter (fun a =>
        ((sync_garmin_activities existing0 acts).2.2).contains a.id)).length ∧
    (sync_garmin_activities (sync_garmin_activities existing0 acts).2.2 acts).2.1 =
      (acts.filter (fun a => !SKIP_ACTIVITY_TYPES.contains a.category)).length ∧
    (sync_garmin_weights (sync_garmin_weights dates0 entries).2.2 entries).1 = 0 ∧
    (sync_garmin_weights (sync_garmin_weights dates0 entries).2.2 entries).2.1 =
      (entries.filter (fun w =>
        ((sync_garmin_weights dates0 entries).2.2).contains w.wdate)).length ∧
    (sync_garmin_weights (sync_garmin_weights dates0 entries).2.2 entries).2.1 =
      entries.length := by
  have hstmem : ∀ x, x ∈ (sync_garmin_activities existing0 acts).2.2 ↔
      (x ∈ existing0 ∨ ∃ a ∈ acts, a.id = x ∧ a.id ∉ existing0 ∧
        a.category ∉ SKIP_ACTIVITY_TYPES) := by
    intro x
    exact sync_acts_store acts existing0 existing0 0 0 x
  have hin : ∀ a ∈ acts, a.category ∉ SKIP_ACTIVITY_TYPES →
      a.id ∈ (sync_garmin_activities existing0 acts).2.2 := by
    intro a ha hskip
    rw [hstmem]
    by_cases hex : a.id ∈ existing0
    · exact Or.inl hex
    · exact Or.inr ⟨a, ha, rfl, hex, hskip⟩
  have hout : ∀ a ∈ acts, a.category ∈ SKIP_ACTIVITY_TYPES →
      a.id ∉ (sync_garmin_activities existing0 acts).2.2 := by
    intro a ha hskip hmem
    rw [hstmem] at hmem
    rcases hmem with h | ⟨b, hb, hid, hbex, hbskip⟩
    · exact hskipfresh a ha hskip h
    · have hba : b = a := List.inj_on_of_nodup_map hnd hb ha hid
      rw [hba] at hbskip
      exact hbskip hskip
  have hwmem : ∀ x, x ∈ (sync_garmin_weights dates0 entries).2.2 ↔
      (x ∈ dates0 ∨ ∃ w ∈ entries, w.wdate = x ∧ w.wdate ∉ dates0) := by
    intro x
    exact sync_weights_store entries dates0 dates0 0 0 x
  have hwin : ∀ w ∈ entries, w.wdate ∈ (sync_garmin_weights dates0 entries).2.2 := by
    intro w hw
    rw [hwmem]
    by_cases hex : w.wdate ∈ dates0
    · exact Or.inl hex
    · exact Or.inr ⟨w, hw, rfl, hex⟩
  refine ⟨?_, ?_, ?_, ?_, ?_, ?_⟩
  · show (sync_acts_loop _ acts _ 0 0).1 = 0
    rw [sync_acts_created]
    have hfil : acts.filter (fun a =>
        !((sync_garmin_activities existing0 acts).2.2).contains a.id &&
        !SKIP_ACTIVITY_TYPES.contains a.category) = [] := by
      apply List.filter_eq_nil_iff.mpr
      intro a ha
      by_cases hskip : a.category ∈ SKIP_ACTIVITY_TYPES
      · simp [hskip]
      · simp [hin a ha hskip]
    rw [hfil]
    rfl
  · show (sync_acts_loop _ acts _ 0 0).2.1 = _
    rw [sync_acts_skipped, Nat.zero_add]
  · show (sync_acts_loop _ acts _ 0 0).2.1 = _
    rw [sync_acts_skipped]
    rw [Nat.zero_add]
    congr 1
    apply List.filter_congr
    intro a ha
    by_cases hskip : a.category ∈ SKIP_ACTIVITY_TYPES
    · have h1 : a.id ∉ (sync_garmin_activities existing0 acts).2.2 := hout a ha hskip
      simp [h1, hskip]
    · have h1 : a.id ∈ (sync_garmin_activities existing0 acts).2.2 := hin a ha hskip
      simp [h1, hskip]
  · show (sync_weights_loop _ entries _ 0 0).1 = 0
    rw [sync_weights_created]
    have hfil : entries.filter (fun w =>
        !((sync_garmin_weights dates0 entries).2.2).contains w.wdate) = [] := by
      apply List.filter_eq_nil_iff.mpr
      intro w hw
      simp [hwin w hw]
    rw [hfil]
    rfl
  · show (sync_weights_loop _ entries _ 0 0).2.1 = _
    rw [sync_weights_skipped, Nat.zero_add]
  · show (sync_weights_loop _ entries _ 0 0).2.1 = _
    rw [sync_weights_skipped]
    rw [Nat.zero_add]
    have hfil : entries.filter (fun w =>
        ((sync_garmin_weights dates0 entries).2.2).contains w.wdate) = entries := by
      apply List.filter_eq_self.mpr
      intro w hw
      simpa using hwin w hw
    rw [hfil]

/-- C9 witness: one real activity, one skip-list activity and one weight
entry, re-imported after a first run from an empty store. -/
theorem c9_rerun_idempotent_witness :
    (([⟨"a1", "running"⟩, ⟨"a2", "sleep"⟩] : List UpAct).map UpAct.id).Nodup ∧
    (∀ a ∈ ([⟨"a1", "running"⟩, ⟨"a2", "sleep"⟩] : List UpAct),
      a.category ∈ SKIP_ACTIVITY_TYPES → a.id ∉ ([] : List String)) ∧
    ((sync_garmin_activities
        (sync_garmin_activities [] [⟨"a1", "running"⟩, ⟨"a2", "sleep"⟩]).2.2
        [⟨"a1", "running"⟩, ⟨"a2", "sleep"⟩]).1 = 0 ∧
      (sync_garmin_activities
        (sync_garmin_activities [] [⟨"a1", "running"⟩, ⟨"a2", "sleep"⟩]).2.2
        [⟨"a1", "running"⟩, ⟨"a2", "sleep"⟩]).2.1 =
        (([⟨"a1", "running"⟩, ⟨"a2", "sleep"⟩] : List UpAct).filter (fun a =>
          ((sync_garmin_activities [] [⟨"a1", "running"⟩, ⟨"a2", "sleep"⟩]).2.2).contains
            a.id)).length ∧
      (sync_garmin_activities
        (sync_garmin_activities [] [⟨"a1", "running"⟩, ⟨"a2", "sleep"⟩]).2.2
        [⟨"a1", "running"⟩, ⟨"a2", "sleep"⟩]).2.1 =
        (([⟨"a1", "running"⟩, ⟨"a2", "sleep"⟩] : List UpAct).filter (fun a =>
          !SKIP_ACTIVITY_TYPES.contains a.category)).length ∧
      (sync_garmin_weights
        (sync_garmin_weights [] [⟨"2026-01-01", 90⟩]).2.2 [⟨"2026-01-01", 90⟩]).1 = 0 ∧
      (sync_garmin_weights
        (sync_garmin_weights [] [⟨"2026-01-01", 90⟩]).2.2 [⟨"2026-01-01", 90⟩]).2.1 =
        (([⟨"2026-01-01", 90⟩] : List UpWeight).filter (fun w =>
          ((sync_garmin_weights [] [⟨"2026-01-01", 90⟩]).2.2).contains w.wdate)).length ∧
      (sync_garmin_weights
        (sync_garmin_weights [] [⟨"2026-01-01", 90⟩]).2.2 [⟨"2026-01-01", 90⟩]).2.1 =
        ([⟨"2026-01-01", 90⟩] : List UpWeight).length) :=
  ⟨by decide, by decide,
   c9_rerun_idempotent [] [⟨"a1", "running"⟩, ⟨"a2", "sleep"⟩] [] [⟨"2026-01-01", 90⟩]
     (by decide) (by decide)⟩

end HealthDash
